import Mathlib

/-!
Verification of the `stest` predicate-evaluation utility
(`src/crates/stest/src/main.rs`), shallowly embedded in Lean 4.

The filesystem is modelled as an abstract oracle (`FS`): `stat` models
`std::fs::metadata` (an `io::Result<Metadata>`, `none` = error), a separate
boolean query models `Path::is_symlink` (which uses `symlink_metadata` and
does not follow links), and `tryExists` models `Path::try_exists`.
All string handling is done over `List Char` so that every definition
reduces in the kernel.
-/

/-- Kind of a filesystem object, as classified by `std::fs::FileType`. -/
inductive FileTy where
  | regular
  | dir
  | symlink
  | block
  | char
  | fifo
  | socket
  deriving DecidableEq, Repr

/-- The fields of `std::fs::Metadata` that the program reads:
`mode()`, `mtime()`, `len()` and `file_type()`. -/
structure FSMeta where
  mode : Nat
  mtime : Int
  len : Nat
  ftype : FileTy
  deriving DecidableEq, Repr

/-- Abstract filesystem oracle. `stat` is `fs::metadata` (follows symlinks;
`none` models an `Err` result). `symlinkQ` is `Path::is_symlink`.
`tryExists` is `Path::try_exists` (`none` models an `Err`). -/
structure FS where
  stat : String → Option FSMeta
  symlinkQ : String → Bool
  tryExists : String → Option Bool

/-- `struct File { path: Box<Path> }` (main.rs line 17). -/
structure File where
  path : String
  deriving DecidableEq, Repr

/-- Rust `Option::is_some_and` / `Result::is_ok_and` on an `Option`. -/
def optIsSomeAnd (p : α → Bool) : Option α → Bool
  | none => false
  | some a => p a

namespace File

/-- `File::meta` (line 26): `self.path.metadata()`. -/
def meta (fs : FS) (f : File) : Option FSMeta := fs.stat f.path

/-- `File::file_type` (line 30). -/
def file_type (fs : FS) (f : File) : Option FileTy :=
  (f.meta fs).map (fun m => m.ftype)

/-- `File::mode` (line 34). -/
def mode (fs : FS) (f : File) : Option Nat :=
  (f.meta fs).map (fun m => m.mode)

end File

/-- Model of `Path::file_name`: split on `/`, discard empty and `"."`
components, take the last; `".."` (and an empty component list, e.g. for
`"/"`) yield `none`. Mirrors `std::path::Path::file_name` on Unix paths. -/
def splitSlashAux : List Char → List Char → List String
  | acc, [] => [String.mk acc.reverse]
  | acc, c :: cs =>
    if c = '/' then String.mk acc.reverse :: splitSlashAux [] cs
    else splitSlashAux (c :: acc) cs

/-- Split a path string at every `/`. -/
def splitSlash (s : String) : List String := splitSlashAux [] s.data

/-- The basename of a path, per `Path::file_name` semantics. -/
def fileName (p : String) : Option String :=
  let comps := (splitSlash p).filter (fun s => s ≠ "" && s ≠ ".")
  match comps.getLast? with
  | none => none
  | some l => if l = ".." then none else some l

/-- Does a string start with `'.'` (`str::starts_with(".")`)? -/
def startsWithDot (s : String) : Bool :=
  match s.data with
  | c :: _ => c = '.'
  | [] => false

namespace File

/-- `File::is_hidden` (lines 38-42): the basename, when there is one,
starts with a dot. A pure string check: takes no filesystem oracle. -/
def is_hidden (f : File) : Bool :=
  optIsSomeAnd startsWithDot (fileName f.path)

/-- `File::is_block` (line 44). -/
def is_block (fs : FS) (f : File) : Bool :=
  optIsSomeAnd (fun t => t = FileTy.block) (f.file_type fs)

/-- `File::is_char` (line 48). -/
def is_char (fs : FS) (f : File) : Bool :=
  optIsSomeAnd (fun t => t = FileTy.char) (f.file_type fs)

/-- `File::is_dir` (line 52): `Path::is_dir` = metadata resolves and is a
directory. -/
def is_dir (fs : FS) (f : File) : Bool :=
  optIsSomeAnd (fun m => m.ftype = FileTy.dir) (fs.stat f.path)

/-- `File::exists` (line 56): `try_exists().is_ok_and(|x| x)`. -/
def exists_q (fs : FS) (f : File) : Bool :=
  optIsSomeAnd (fun b => b) (fs.tryExists f.path)

/-- `File::is_file` (line 60): `Path::is_file`. -/
def is_file (fs : FS) (f : File) : Bool :=
  optIsSomeAnd (fun m => m.ftype = FileTy.regular) (fs.stat f.path)

/-- `File::has_setgid` (line 64): `mode & 0o2000 != 0`. -/
def has_setgid (fs : FS) (f : File) : Bool :=
  optIsSomeAnd (fun m => Nat.land m 0o2000 != 0) (f.mode fs)

/-- `File::is_symlink` (line 68): `Path::is_symlink` (no follow). -/
def is_symlink (fs : FS) (f : File) : Bool := fs.symlinkQ f.path

/-- `File::is_pipe` (line 72). -/
def is_pipe (fs : FS) (f : File) : Bool :=
  optIsSomeAnd (fun t => t = FileTy.fifo) (f.file_type fs)

/-- `File::is_readable` (line 76): `mode & 0o0444 != 0`. -/
def is_readable (fs : FS) (f : File) : Bool :=
  optIsSomeAnd (fun m => Nat.land m 0o444 != 0) (f.mode fs)

/-- `File::has_setuid` (line 80): `mode & 0o4000 != 0`. -/
def has_setuid (fs : FS) (f : File) : Bool :=
  optIsSomeAnd (fun m => Nat.land m 0o4000 != 0) (f.mode fs)

/-- `File::is_non_empty` (line 84): `meta.len() > 0`. -/
def is_non_empty (fs : FS) (f : File) : Bool :=
  optIsSomeAnd (fun m => decide (0 < m.len)) (f.meta fs)

/-- `File::is_writable` (line 88): `mode & 0o0222 != 0`. -/
def is_writable (fs : FS) (f : File) : Bool :=
  optIsSomeAnd (fun m => Nat.land m 0o222 != 0) (f.mode fs)

/-- `File::is_executable` (line 92): `mode & 0o0111 != 0`. -/
def is_executable (fs : FS) (f : File) : Bool :=
  optIsSomeAnd (fun m => Nat.land m 0o111 != 0) (f.mode fs)

end File

/-- `i64::partial_cmp`, total on integers. -/
def cmpInt (a b : Int) : Ordering :=
  if a < b then Ordering.lt else if a = b then Ordering.eq else Ordering.gt

/-- `PartialOrd for File` (lines 109-117): compare the two entries'
`mtime`s; `none` (incomparable) when either `meta()` fails. -/
def filePartialCmp (fs : FS) (a b : File) : Option Ordering :=
  (a.meta fs).bind (fun m =>
    (b.meta fs).bind (fun om => some (cmpInt m.mtime om.mtime)))

/-- Rust `a > b` via `PartialOrd`: `partial_cmp == Some(Greater)`. -/
def fileGt (fs : FS) (a b : File) : Bool :=
  filePartialCmp fs a b = some Ordering.gt

/-- Rust `a < b` via `PartialOrd`: `partial_cmp == Some(Less)`. -/
def fileLt (fs : FS) (a b : File) : Bool :=
  filePartialCmp fs a b = some Ordering.lt

/-- The command-line flag set (`Matches::opt_present` results): the sixteen
test flags `a b c d e f g h n o p r s u w x`, plus `l` (recurse),
`q` (quiet) and `v` (invert). -/
structure Flags where
  a : Bool
  b : Bool
  c : Bool
  d : Bool
  e : Bool
  f : Bool
  g : Bool
  h : Bool
  l : Bool
  n : Bool
  o : Bool
  p : Bool
  q : Bool
  r : Bool
  s : Bool
  u : Bool
  v : Bool
  w : Bool
  x : Bool
  deriving DecidableEq, Repr

/-- The parenthesised conjunction of `test` (main.rs lines 120-135): each
inactive flag contributes `true`; `n`/`o` use `Option::is_some_and` over the
optional reference entries. -/
def conjunction (fs : FS) (flags : Flags) (file : File)
    (new old : Option File) : Bool :=
  (!flags.a || file.is_hidden)
  && (!flags.b || file.is_block fs)
  && (!flags.c || file.is_char fs)
  && (!flags.d || file.is_dir fs)
  && (!flags.e || file.exists_q fs)
  && (!flags.f || file.is_file fs)
  && (!flags.g || file.has_setgid fs)
  && (!flags.h || file.is_symlink fs)
  && (!flags.n || optIsSomeAnd (fun nf => fileGt fs file nf) new)
  && (!flags.o || optIsSomeAnd (fun of => fileLt fs file of) old)
  && (!flags.p || file.is_pipe fs)
  && (!flags.r || file.is_readable fs)
  && (!flags.s || file.is_non_empty fs)
  && (!flags.u || file.has_setuid fs)
  && (!flags.w || file.is_writable fs)
  && (!flags.x || file.is_executable fs)

/-- The post-inversion verdict (line 136): `conjunction != flags.v`. -/
def verdict (fs : FS) (flags : Flags) (file : File)
    (new old : Option File) : Bool :=
  conjunction fs flags file new old != flags.v

/-- A flag set with the invert flag replaced. -/
def setInvert (fl : Flags) (b : Bool) : Flags := { fl with v := b }

/-- Are all sixteen test flags inactive? -/
def noTestFlags (fl : Flags) : Bool :=
  !fl.a && !fl.b && !fl.c && !fl.d && !fl.e && !fl.f && !fl.g && !fl.h
  && !fl.n && !fl.o && !fl.p && !fl.r && !fl.s && !fl.u && !fl.w && !fl.x

/-- The all-false flag set. -/
def flagsNone : Flags :=
  ⟨false, false, false, false, false, false, false, false, false, false,
   false, false, false, false, false, false, false, false, false⟩

/-- Observable state of a run: the process-wide `MATCH` byte (line 14,
as a boolean) and the lines printed so far. -/
structure RunState where
  matched : Bool
  out : List String
  deriving DecidableEq, Repr

/-- One call of `test` (lines 119-146) as a state transformer.
`Except.error st` models `exit(0)` in quiet mode: the process terminates
with the output produced so far; otherwise the match byte is set and the
path printed on a positive verdict. -/
def testStep (fs : FS) (flags : Flags) (new old : Option File)
    (file : File) (st : RunState) : Except RunState RunState :=
  if verdict fs flags file new old then
    if flags.q then Except.error st
    else Except.ok ⟨true, st.out ++ [file.path]⟩
  else Except.ok st

/-- Run `test` over a list of entries, threading the state; an `error`
(quiet-mode `exit(0)`) aborts the remaining entries. -/
def runEntries (fs : FS) (flags : Flags) (new old : Option File) :
    List File → RunState → Except RunState RunState
  | [], st => Except.ok st
  | f :: rest, st =>
    match testStep fs flags new old f st with
    | Except.error st' => Except.error st'
    | Except.ok st' => runEntries fs flags new old rest st'

/-- Full evaluation pass over the expanded entry list: exit code and
printed lines.  Quiet-mode early exit yields code 0; otherwise
`exit((MATCH == 0) as i32)` (line 220): 0 when matched, 1 when not. -/
def runAll (fs : FS) (flags : Flags) (new old : Option File)
    (entries : List File) : Nat × List String :=
  match runEntries fs flags new old entries ⟨false, []⟩ with
  | Except.error st => (0, st.out)
  | Except.ok st => (if st.matched then 0 else 1, st.out)

/-- A directory tree used to model what `walkdir::WalkDir` sees on disk. -/
inductive FsTree where
  | file (nm : String)
  | dir (nm : String) (children : List FsTree)

/-- The name of a tree node. -/
def FsTree.nodeName : FsTree → String
  | FsTree.file nm => nm
  | FsTree.dir nm _ => nm

mutual

/-- `WalkDir::new(p)` over tree `t` rooted at path `p`: the depth-first
list of (path, is-directory) pairs.  `WalkDir` yields the root itself
(depth 0) first, then its contents. -/
def walkEntries (p : String) : FsTree → List (String × Bool)
  | FsTree.file _ => [(p, false)]
  | FsTree.dir _ cs => (p, true) :: walkChildren p cs

/-- Walk each child of a directory at path `p`, in order. -/
def walkChildren (p : String) : List FsTree → List (String × Bool)
  | [] => []
  | c :: cs => walkEntries (p ++ "/" ++ c.nodeName) c ++ walkChildren p cs

end

/-- `Stdin::read_line` chunking: cut the raw input into lines, each chunk
keeping its terminating newline; a final chunk without a newline is kept
as-is.  The end of the list models `read_line` returning `Ok(0)`. -/
def chunkAux : List Char → List Char → List (List Char)
  | acc, [] => if acc.isEmpty then [] else [acc.reverse]
  | acc, c :: cs =>
    if c = '\n' then (acc.reverse ++ ['\n']) :: chunkAux [] cs
    else chunkAux (c :: acc) cs

/-- The successive results of `read_line` on a whole stdin stream. -/
def toChunks (s : String) : List String :=
  (chunkAux [] s.data).map String.mk

/-- Is a character trimmed by `str::trim`?  (ASCII whitespace; Rust uses
Unicode `White_Space`, which agrees on ASCII.) -/
def isWS (c : Char) : Bool := c = ' ' || c = '\t' || c = '\n' || c = '\r'

/-- `str::trim` on the character list model. -/
def trimStr (s : String) : String :=
  String.mk (((s.data.dropWhile isWS).reverse.dropWhile isWS).reverse)

/-- The stdin-reading loop (main.rs lines 194-204): stop at `Ok(0)` (end of
chunks) or at a line that is exactly `"\n"`; otherwise push the trimmed
line and continue. -/
def readPaths : List String → List String
  | [] => []
  | l :: rest => if l = "\n" then [] else trimStr l :: readPaths rest

/-- Candidate paths obtained from a raw stdin stream. -/
def readStdinPaths (s : String) : List String := readPaths (toChunks s)

/-- Expansion of one candidate path (lines 206-217): with `l` active and
the path a directory, the entries are those produced by the walk
(`walker` abstracts `WalkDir` + skipping of erroneous entries);
otherwise the path itself is the sole entry. -/
def expandPath (fs : FS) (walker : String → List String) (flags : Flags)
    (f : File) : List File :=
  if flags.l && f.is_dir fs then (walker f.path).map File.mk else [f]

/-- Outcome of `opts.parse(std::env::args())` (lines 181-187): either the
flag set plus the optional `-n`/`-o` arguments and the free (non-option)
arguments — whose head is `argv[0]`, hence the `skip(1)` — or a parse
error. -/
inductive ParseOutcome where
  | parsed (flags : Flags) (newArg oldArg : Option String)
      (free : List String)
  | err

/-- The `brief` usage line built in `usage` (lines 148-154). -/
def usageBrief (program : String) : String :=
  "usage: " ++ program ++ " [-abcdefghlpqrsuvwx] [-n file] [-o file] [file...]"

/-- `main` after a successful parse (lines 189-220): build the reference
entries, resolve the candidate list (free arguments past `argv[0]`, else
stdin), expand each candidate, and run the evaluation pass. -/
def stestRun (fs : FS) (walker : String → List String) (flags : Flags)
    (newArg oldArg : Option String) (free : List String)
    (stdinChunks : List String) : Nat × List String :=
  let newer := newArg.map File.mk
  let older := oldArg.map File.mk
  let args := (free.drop 1).map File.mk
  let paths := if args.isEmpty then (readPaths stdinChunks).map File.mk
    else args
  runAll fs flags newer older
    (paths.flatMap (expandPath fs walker flags))

/-- `main` (lines 156-221): a parse failure prints the usage message and
exits with status 2; otherwise the evaluation pass decides the exit
status. -/
def stestMain (fs : FS) (walker : String → List String) (program : String)
    (pr : ParseOutcome) (stdinChunks : List String) : Nat × List String :=
  match pr with
  | ParseOutcome.err => (2, [usageBrief program])
  | ParseOutcome.parsed flags newArg oldArg free =>
    stestRun fs walker flags newArg oldArg free stdinChunks

theorem testStep_pos_quiet (fs : FS) (fl : Flags) (new old : Option File)
    (e : File) (st : RunState) (hv : verdict fs fl e new old = true)
    (hq : fl.q = true) :
    testStep fs fl new old e st = Except.error st := by
  rw [testStep, hv, hq]; rfl

theorem testStep_pos_loud (fs : FS) (fl : Flags) (new old : Option File)
    (e : File) (st : RunState) (hv : verdict fs fl e new old = true)
    (hq : fl.q = false) :
    testStep fs fl new old e st = Except.ok ⟨true, st.out ++ [e.path]⟩ := by
  rw [testStep, hv, hq]; rfl

theorem testStep_neg (fs : FS) (fl : Flags) (new old : Option File)
    (e : File) (st : RunState) (hv : verdict fs fl e new old = false) :
    testStep fs fl new old e st = Except.ok st := by
  rw [testStep, hv]; rfl

theorem runEntries_cons (fs : FS) (fl : Flags) (new old : Option File)
    (e : File) (rest : List File) (st : RunState) :
    runEntries fs fl new old (e :: rest) st =
      match testStep fs fl new old e st with
      | Except.error st' => Except.error st'
      | Except.ok st' => runEntries fs fl new old rest st' := rfl

theorem runEntries_quiet (fs : FS) (fl : Flags) (new old : Option File)
    (hq : fl.q = true) (es : List File) (st : RunState) :
    runEntries fs fl new old es st =
      if es.any (fun e => verdict fs fl e new old) then Except.error st
      else Except.ok st := by
  induction es with
  | nil => rfl
  | cons e rest ih =>
    rw [runEntries_cons]
    by_cases hv : verdict fs fl e new old = true
    · rw [testStep_pos_quiet fs fl new old e st hv hq]
      simp only [List.any_cons, hv, Bool.true_or, if_true]
    · simp only [Bool.not_eq_true] at hv
      rw [testStep_neg fs fl new old e st hv]
      simp only [List.any_cons, hv, Bool.false_or]
      exact ih

theorem runEntries_loud (fs : FS) (fl : Flags) (new old : Option File)
    (hq : fl.q = false) (es : List File) (st : RunState) :
    runEntries fs fl new old es st =
      Except.ok
        ⟨st.matched || es.any (fun e => verdict fs fl e new old),
         st.out ++ (es.filter (fun e => verdict fs fl e new old)).map
           File.path⟩ := by
  induction es generalizing st with
  | nil =>
    simp only [List.any_nil, List.filter_nil, List.map_nil, Bool.or_false,
      List.append_nil]
    rfl
  | cons e rest ih =>
    rw [runEntries_cons]
    by_cases hv : verdict fs fl e new old = true
    · rw [testStep_pos_loud fs fl new old e st hv hq]
      show runEntries fs fl new old rest ⟨true, st.out ++ [e.path]⟩ = _
      rw [ih]
      simp [hv, List.filter_cons]
    · simp only [Bool.not_eq_true] at hv
      rw [testStep_neg fs fl new old e st hv]
      show runEntries fs fl new old rest st = _
      rw [ih]
      simp [hv, List.filter_cons]

theorem runAll_exit_code (fs : FS) (fl : Flags) (new old : Option File)
    (es : List File) :
    (runAll fs fl new old es).1 =
      if es.any (fun e => verdict fs fl e new old) then 0 else 1 := by
  by_cases hq : fl.q = true
  · rw [runAll, runEntries_quiet fs fl new old hq]
    by_cases ha : es.any (fun e => verdict fs fl e new old) = true
    · simp [ha]
    · simp only [Bool.not_eq_true] at ha
      simp [ha]
  · simp only [Bool.not_eq_true] at hq
    rw [runAll, runEntries_loud fs fl new old hq]
    by_cases ha : es.any (fun e => verdict fs fl e new old) = true
    · simp [ha]
    · simp only [Bool.not_eq_true] at ha
      simp [ha]

theorem runAll_quiet (fs : FS) (fl : Flags) (new old : Option File)
    (hq : fl.q = true) (es : List File) :
    runAll fs fl new old es =
      ((if es.any (fun e => verdict fs fl e new old) then 0 else 1), []) := by
  rw [runAll, runEntries_quiet fs fl new old hq]
  by_cases ha : es.any (fun e => verdict fs fl e new old) = true
  · simp [ha]
  · simp only [Bool.not_eq_true] at ha
    simp [ha]

/-- A filesystem on which every metadata query fails. -/
def fsEmpty : FS := ⟨fun _ => none, fun _ => false, fun _ => none⟩

/-- C1: for a flag set without the invert flag `v`, adding `v` negates the
verdict and changes nothing else — the conjunction itself never reads
`v`. -/
theorem invert_flag_negates_verdict (fs : FS) (fl : Flags) (f : File)
    (new old : Option File) (hv : fl.v = false) :
    verdict fs fl f new old = !verdict fs (setInvert fl true) f new old
    ∧ ∀ b : Bool,
        conjunction fs (setInvert fl b) f new old
          = conjunction fs fl f new old := by
  have hc : ∀ b : Bool,
      conjunction fs (setInvert fl b) f new old
        = conjunction fs fl f new old := fun b => rfl
  refine ⟨?_, hc⟩
  unfold verdict
  rw [hc true, hv]
  show _ = !(conjunction fs fl f new old != true)
  cases conjunction fs fl f new old <;> rfl

/-- Witness for C1 at a concrete entry and the all-false flag set. -/
theorem invert_flag_negates_verdict_witness :
    verdict fsEmpty flagsNone (File.mk "a") none none
      = !verdict fsEmpty (setInvert flagsNone true) (File.mk "a") none
          none :=
  (invert_flag_negates_verdict fsEmpty flagsNone (File.mk "a") none none
    rfl).1

/-- C2: with no active test flag the conjunction is vacuously true, so
every entry matches and only the invert flag decides the verdict. -/
theorem no_test_flags_vacuous_truth (fs : FS) (fl : Flags) (f : File)
    (new old : Option File) (h : noTestFlags fl = true) :
    conjunction fs fl f new old = true
    ∧ verdict fs fl f new old = !fl.v := by
  simp only [noTestFlags, Bool.and_eq_true, Bool.not_eq_true'] at h
  have hc : conjunction fs fl f new old = true := by
    simp [conjunction, h]
  refine ⟨hc, ?_⟩
  unfold verdict
  rw [hc]
  cases fl.v <;> rfl

/-- Witness for C2 on the all-false flag set. -/
theorem no_test_flags_vacuous_truth_witness :
    conjunction fsEmpty flagsNone (File.mk "a") none none = true
    ∧ verdict fsEmpty flagsNone (File.mk "a") none none
        = !flagsNone.v :=
  no_test_flags_vacuous_truth fsEmpty flagsNone (File.mk "a") none none
    rfl

/-- The exit code of an evaluation pass is always 0 or 1. -/
theorem runAll_code_or (fs : FS) (fl : Flags) (new old : Option File)
    (es : List File) :
    (runAll fs fl new old es).1 = 0 ∨ (runAll fs fl new old es).1 = 1 := by
  rw [runAll_exit_code]
  by_cases h : es.any (fun e => verdict fs fl e new old) = true
  · left; simp [h]
  · right; simp only [Bool.not_eq_true] at h; simp [h]

/-- C3: in quiet mode a positive verdict exits immediately with status 0,
nothing is ever printed, and no further candidate is evaluated; with no
match the exit status is 1, still printing nothing. -/
theorem quiet_mode_early_exit (fs : FS) (fl : Flags) (new old : Option File)
    (es : List File) (hq : fl.q = true) :
    runAll fs fl new old es =
      ((if es.any (fun e => verdict fs fl e new old) then 0 else 1), [])
    ∧ ∀ (e : File) (rest : List File) (st : RunState),
        verdict fs fl e new old = true →
        runEntries fs fl new old (e :: rest) st = Except.error st := by
  refine ⟨runAll_quiet fs fl new old hq es, ?_⟩
  intro e rest st hv
  rw [runEntries_cons, testStep_pos_quiet fs fl new old e st hv hq]

/-- `stest -q -f`: quiet mode with the regular-file test. -/
def flagsQF : Flags := { flagsNone with q := true, f := true }

/-- A filesystem holding a single regular file at path `"x"`. -/
def fsOneFile : FS :=
  ⟨fun s => if s = "x" then some ⟨0o644, 0, 5, FileTy.regular⟩ else none,
   fun _ => false,
   fun s => some (s = "x")⟩

/-- Witness for C3: `stest -q -f x` on a filesystem where `x` is a regular
file exits 0 printing nothing; on the missing path `y` it exits 1, also
printing nothing. -/
theorem quiet_mode_early_exit_witness :
    runAll fsOneFile flagsQF none none [File.mk "x"] = (0, [])
    ∧ runAll fsOneFile flagsQF none none [File.mk "y"] = (1, []) := by
  have h1 :=
    (quiet_mode_early_exit fsOneFile flagsQF none none [File.mk "x"] rfl).1
  have h2 :=
    (quiet_mode_early_exit fsOneFile flagsQF none none [File.mk "y"] rfl).1
  rw [h1, h2]
  constructor <;> decide

/-- C4: a parse failure prints the usage message and exits with status 2;
otherwise the exit status is decided by the final match state — 0 when it
is set, 1 when it is not — which is set exactly when some entry's
post-inversion verdict was positive. -/
theorem exit_status_and_usage_policy :
    (∀ (fs : FS) (walker : String → List String) (program : String)
        (chunks : List String),
      stestMain fs walker program ParseOutcome.err chunks
        = (2, [usageBrief program]))
    ∧ (∀ (fs : FS) (fl : Flags) (new old : Option File) (es : List File)
        (st : RunState),
        runEntries fs fl new old es ⟨false, []⟩ = Except.ok st →
        runAll fs fl new old es = ((if st.matched then 0 else 1), st.out))
    ∧ ∀ (fs : FS) (fl : Flags) (new old : Option File) (es : List File),
        (runAll fs fl new old es).1 =
          if es.any (fun e => verdict fs fl e new old) then 0 else 1 := by
  refine ⟨fun _ _ _ _ => rfl, ?_, fun fs fl new old es => runAll_exit_code fs fl new old es⟩
  intro fs fl new old es st h
  rw [runAll, h]

/-- Witness for C4: on an empty candidate list the loop returns the
initial state and the process exits with status 1. -/
theorem exit_status_and_usage_policy_witness :
    runAll fsEmpty flagsNone none none [] = (1, []) := by
  have h := exit_status_and_usage_policy.2.1 fsEmpty flagsNone none none []
    ⟨false, []⟩ rfl
  rw [h]; rfl

/-- C5: the comparator reads only the two `mtime`s, is incomparable
exactly when a metadata query fails, and an incomparable result makes an
active `n` or `o` test — hence the whole conjunction — false. -/
theorem mtime_comparator_incomparable (fs : FS) (a b : File) :
    (fs.stat a.path = none ∨ fs.stat b.path = none →
      filePartialCmp fs a b = none)
    ∧ (∀ ma mb, fs.stat a.path = some ma → fs.stat b.path = some mb →
        filePartialCmp fs a b = some (cmpInt ma.mtime mb.mtime))
    ∧ (filePartialCmp fs a b = none →
        fileGt fs a b = false ∧ fileLt fs a b = false)
    ∧ (∀ (fl : Flags) (old : Option File), fl.n = true →
        filePartialCmp fs a b = none →
        conjunction fs fl a (some b) old = false)
    ∧ (∀ (fl : Flags) (new : Option File), fl.o = true →
        filePartialCmp fs a b = none →
        conjunction fs fl a new (some b) = false) := by
  refine ⟨?_, ?_, ?_, ?_, ?_⟩
  · rintro (h | h) <;> simp [filePartialCmp, File.meta, h]
  · intro ma mb ha hb
    simp [filePartialCmp, File.meta, ha, hb]
  · intro h
    constructor <;> simp [fileGt, fileLt, h]
  · intro fl old hn hnone
    have hg : fileGt fs a b = false := by simp [fileGt, hnone]
    simp [conjunction, hn, optIsSomeAnd, hg]
  · intro fl new ho hnone
    have hl : fileLt fs a b = false := by simp [fileLt, hnone]
    simp [conjunction, ho, optIsSomeAnd, hl]

/-- Flag set with only the newer-than test active. -/
def flagsOnlyN : Flags := { flagsNone with n := true }

/-- Witness for C5 on a filesystem where every metadata query fails. -/
theorem mtime_comparator_incomparable_witness :
    filePartialCmp fsEmpty (File.mk "x") (File.mk "y") = none
    ∧ fileGt fsEmpty (File.mk "x") (File.mk "y") = false
    ∧ conjunction fsEmpty flagsOnlyN (File.mk "x") (some (File.mk "y"))
        none = false := by
  have h := mtime_comparator_incomparable fsEmpty (File.mk "x") (File.mk "y")
  exact ⟨h.1 (Or.inl rfl), (h.2.2.1 rfl).1, h.2.2.2.1 flagsOnlyN none rfl rfl⟩

/-- Flag set with only the older-than test active. -/
def flagsOnlyO : Flags := { flagsNone with o := true }

/-- C6: with `n` (respectively `o`) active but no reference entry, the
corresponding test and hence the conjunction is false for every entry
(the verdict equals the invert flag, so the entry is excluded unless
inverted), and the run still terminates normally with a match status of
0 or 1 — never the usage status. -/
theorem missing_reference_tests_false (fs : FS) (fl : Flags) (f : File) :
    (∀ old : Option File, fl.n = true →
        conjunction fs fl f none old = false
        ∧ verdict fs fl f none old = fl.v)
    ∧ (∀ new : Option File, fl.o = true →
        conjunction fs fl f new none = false
        ∧ verdict fs fl f new none = fl.v)
    ∧ ∀ (walker : String → List String) (program : String)
        (free chunks : List String),
        (stestMain fs walker program
            (ParseOutcome.parsed fl none none free) chunks).1 = 0
        ∨ (stestMain fs walker program
            (ParseOutcome.parsed fl none none free) chunks).1 = 1 := by
  refine ⟨?_, ?_, ?_⟩
  · intro old hn
    have hc : conjunction fs fl f none old = false := by
      simp [conjunction, hn, optIsSomeAnd]
    refine ⟨hc, ?_⟩
    unfold verdict; rw [hc]; cases fl.v <;> rfl
  · intro new ho
    have hc : conjunction fs fl f new none = false := by
      simp [conjunction, ho, optIsSomeAnd]
    refine ⟨hc, ?_⟩
    unfold verdict; rw [hc]; cases fl.v <;> rfl
  · intro walker program free chunks
    exact runAll_code_or fs fl (Option.map File.mk none)
      (Option.map File.mk none) _

/-- Witness for C6: `-n` without a reference and `-o` without a
reference, each on a concrete entry. -/
theorem missing_reference_tests_false_witness :
    (conjunction fsEmpty flagsOnlyN (File.mk "a") none none = false
      ∧ verdict fsEmpty flagsOnlyN (File.mk "a") none none = flagsOnlyN.v)
    ∧ (conjunction fsEmpty flagsOnlyO (File.mk "a") none none = false
      ∧ verdict fsEmpty flagsOnlyO (File.mk "a") none none = flagsOnlyO.v)
    ∧ ((stestMain fsEmpty (fun s => [s]) "stest"
          (ParseOutcome.parsed flagsOnlyN none none ["stest", "a"]) []).1 = 0
        ∨ (stestMain fsEmpty (fun s => [s]) "stest"
          (ParseOutcome.parsed flagsOnlyN none none ["stest", "a"]) []).1
            = 1) :=
  ⟨(missing_reference_tests_false fsEmpty flagsOnlyN (File.mk "a")).1
      none rfl,
   (missing_reference_tests_false fsEmpty flagsOnlyO (File.mk "a")).2.1
      none rfl,
   (missing_reference_tests_false fsEmpty flagsOnlyN (File.mk "a")).2.2
      (fun s => [s]) "stest" ["stest", "a"] []⟩

/-- A non-blank line never stops the reading loop: it is trimmed and
pushed. -/
theorem readPaths_cons_ne (l : String) (rest : List String)
    (hl : l ≠ "\n") :
    readPaths (l :: rest) = trimStr l :: readPaths rest := by
  show (if l = "\n" then [] else trimStr l :: readPaths rest) = _
  exact if_neg hl

/-- A line that is exactly `"\n"` stops the reading loop. -/
theorem readPaths_cons_blank (rest : List String) :
    readPaths ("\n" :: rest) = [] := by
  show (if ("\n" : String) = "\n" then [] else _) = []
  exact if_pos rfl

/-- C9: the hidden test is a pure string check — true exactly when the
basename starts with a dot; `"/"` has no basename, hence is not hidden. -/
theorem hidden_test_is_basename_dot :
    (File.mk "/tmp/.foo").is_hidden = true
    ∧ (File.mk "/tmp/foo").is_hidden = false
    ∧ (File.mk "/").is_hidden = false
    ∧ fileName "/" = none
    ∧ ∀ f : File,
        f.is_hidden = optIsSomeAnd startsWithDot (fileName f.path) :=
  ⟨by decide, by decide, by decide, by decide, fun _ => rfl⟩

/-- C8: with no positional arguments, candidates come from stdin one per
line, trimmed; reading stops at a blank line or end of stream, and
anything after the blank line is ignored. -/
theorem stdin_reading_stops_at_blank (l : String) (rest : List String)
    (hl : l ≠ "\n") :
    readStdinPaths "a\nb\n\n" = ["a", "b"]
    ∧ readStdinPaths "a\nb\n\nc\nd\n" = ["a", "b"]
    ∧ (∀ more : List String,
        readPaths (["a\n", "b\n", "\n"] ++ more) = ["a", "b"])
    ∧ readPaths (l :: rest) = trimStr l :: readPaths rest
    ∧ readPaths ("\n" :: rest) = []
    ∧ readPaths ([] : List String) = [] := by
  refine ⟨by decide, by decide, ?_, readPaths_cons_ne l rest hl,
    readPaths_cons_blank rest, rfl⟩
  intro more
  show readPaths ("a\n" :: "b\n" :: "\n" :: more) = _
  rw [readPaths_cons_ne "a\n" _ (by decide),
    readPaths_cons_ne "b\n" _ (by decide), readPaths_cons_blank more]
  decide

/-- Witness for C8 at a concrete non-blank line. -/
theorem stdin_reading_stops_at_blank_witness :
    readStdinPaths "a\nb\n\n" = ["a", "b"]
    ∧ readPaths ["x\n"] = ["x"] := by
  have h := stdin_reading_stops_at_blank "x\n" [] (by decide)
  refine ⟨h.1, ?_⟩
  rw [h.2.2.2.1]
  decide

/-- C10: a whitespace line other than a lone newline does not terminate
stdin reading — it contributes an empty-string candidate and reading
continues; only `"\n"` itself or end of input stops the loop. -/
theorem whitespace_line_not_terminator :
    readStdinPaths "  \na\n\n" = ["", "a"]
    ∧ trimStr "  \n" = ""
    ∧ (∀ rest : List String,
        readPaths ("  \n" :: rest) = "" :: readPaths rest)
    ∧ (∀ rest : List String, readPaths ("\n" :: rest) = [])
    ∧ readPaths ([] : List String) = [] := by
  refine ⟨by decide, by decide, ?_, readPaths_cons_blank, rfl⟩
  intro rest
  rw [readPaths_cons_ne "  \n" rest (by decide)]
  have ht : trimStr "  \n" = "" := by decide
  rw [ht]

/-- `stest -d -l`: directory test with recursion. -/
def flagsDL : Flags := { flagsNone with d := true, l := true }

/-- A directory `d` holding a subdirectory `s` and a regular file `f`. -/
def treeEx : FsTree := FsTree.dir "d" [FsTree.dir "s" [], FsTree.file "f"]

/-- Metadata for the disk holding `treeEx` at `"d"`. -/
def statEx : String → Option FSMeta := fun s =>
  if s = "d" then some ⟨0o755, 0, 0, FileTy.dir⟩
  else if s = "d/s" then some ⟨0o755, 0, 0, FileTy.dir⟩
  else if s = "d/f" then some ⟨0o644, 0, 3, FileTy.regular⟩
  else none

/-- The filesystem oracle for the disk holding `treeEx` at `"d"`. -/
def fsWalk : FS := ⟨statEx, fun _ => false, fun s => some (statEx s).isSome⟩

/-- The `WalkDir` collaborator over that disk. -/
def walkerEx : String → List String :=
  fun s => (walkEntries s treeEx).map Prod.fst

/-- C7 counterexample: `stest -d -l d` on a directory `d` containing a
subdirectory `s` and a regular file `f` prints `d` itself as well as
`d/s` — the walk starts at the root, so the output is not just the
subdirectories strictly under `d`. -/
theorem recursive_walk_counterexample :
    (stestMain fsWalk walkerEx "stest"
        (ParseOutcome.parsed flagsDL none none ["stest", "d"]) []).2
      = ["d", "d/s"]
    ∧ (stestMain fsWalk walkerEx "stest"
        (ParseOutcome.parsed flagsDL none none ["stest", "d"]) []).2
      ≠ ["d/s"] := by
  constructor <;> decide

/-- With only `d` (and `l`) active, the verdict is exactly the
directory test. -/
theorem verdict_flagsDL (fs : FS) (e : File) :
    verdict fs flagsDL e none none = e.is_dir fs := by
  have hc : conjunction fs flagsDL e none none = e.is_dir fs := by
    simp [conjunction, flagsDL, flagsNone, optIsSomeAnd]
  unfold verdict
  rw [hc]
  show (e.is_dir fs != false) = _
  cases e.is_dir fs <;> rfl

/-- Filtering the walked entries by the directory test keeps exactly the
pairs the walk marked as directories. -/
theorem filter_walked (fs : FS) (l : List (String × Bool))
    (hl : ∀ pr ∈ l, (File.mk pr.1).is_dir fs = pr.2) :
    ((((l.map Prod.fst).map File.mk).filter
        (fun e => e.is_dir fs)).map File.path)
      = (l.filter (fun pr => pr.2)).map Prod.fst := by
  induction l with
  | nil => rfl
  | cons a rest ih =>
    have ha := hl a (List.mem_cons_self a rest)
    have ih' := ih (fun pr hpr => hl pr (List.mem_cons_of_mem a hpr))
    rw [List.map_map] at ih'
    by_cases hb : a.2 = true
    · simp [List.filter_cons, ha, hb, ih']
    · simp only [Bool.not_eq_true] at hb
      rw [hb] at ha
      simp [List.filter_cons, ha, hb, ih']

/-- C7 amended: with recursion active on a directory candidate, the
entries tested are the walk of the directory — the root itself followed
by its recursively reachable contents — so `stest -d -l <dir>` reports
`<dir>` itself and every subdirectory under it, and none of the regular
files. -/
theorem recursive_walk_tests_root_and_contents (fs : FS)
    (walker : String → List String) (p : String) (nm : String)
    (cs : List FsTree) (program : String) (chunks : List String)
    (hw : walker p = (walkEntries p (FsTree.dir nm cs)).map Prod.fst)
    (hfs : ∀ pr ∈ walkEntries p (FsTree.dir nm cs),
        (File.mk pr.1).is_dir fs = pr.2) :
    (stestRun fs walker flagsDL none none [program, p] chunks).2
      = ((walkEntries p (FsTree.dir nm cs)).filter (fun pr => pr.2)).map
          Prod.fst
    ∧ p ∈ (stestRun fs walker flagsDL none none [program, p] chunks).2 := by
  have hmem : (p, true) ∈ walkEntries p (FsTree.dir nm cs) := by
    show (p, true) ∈ (p, true) :: walkChildren p cs
    exact List.mem_cons_self _ _
  have hroot : (File.mk p).is_dir fs = true := hfs (p, true) hmem
  have hexp : expandPath fs walker flagsDL (File.mk p)
      = (walker p).map File.mk := by
    unfold expandPath
    rw [hroot]
    rfl
  have hrun : stestRun fs walker flagsDL none none [program, p] chunks
      = runAll fs flagsDL none none ((walker p).map File.mk) := by
    show runAll fs flagsDL none none
        ([File.mk p].flatMap (expandPath fs walker flagsDL)) = _
    have hfm : [File.mk p].flatMap (expandPath fs walker flagsDL)
        = expandPath fs walker flagsDL (File.mk p) ++ [] := rfl
    rw [hfm, hexp, List.append_nil]
  have hout : (stestRun fs walker flagsDL none none [program, p] chunks).2
      = ((walkEntries p (FsTree.dir nm cs)).filter (fun pr => pr.2)).map
          Prod.fst := by
    rw [hrun, runAll, runEntries_loud fs flagsDL none none rfl]
    simp only [RunState.matched, RunState.out, List.nil_append]
    show ((walker p).map File.mk |>.filter
        (fun e => verdict fs flagsDL e none none)).map File.path = _
    have hv : (fun e => verdict fs flagsDL e none none)
        = (fun e => e.is_dir fs) := by
      funext e; exact verdict_flagsDL fs e
    rw [hv, hw]
    exact filter_walked fs (walkEntries p (FsTree.dir nm cs)) hfs
  refine ⟨hout, ?_⟩
  rw [hout]
  have : (p, true) ∈ (walkEntries p (FsTree.dir nm cs)).filter
      (fun pr => pr.2) := List.mem_filter.2 ⟨hmem, rfl⟩
  exact List.mem_map_of_mem Prod.fst this

/-- Witness for the amended C7 on the concrete disk `treeEx`. -/
theorem recursive_walk_tests_root_and_contents_witness :
    (stestRun fsWalk walkerEx flagsDL none none ["stest", "d"] []).2
      = ((walkEntries "d" treeEx).filter (fun pr => pr.2)).map Prod.fst
    ∧ "d" ∈ (stestRun fsWalk walkerEx flagsDL none none
        ["stest", "d"] []).2 := by
  have h := recursive_walk_tests_root_and_contents fsWalk walkerEx "d" "d"
    [FsTree.dir "s" [], FsTree.file "f"] "stest" [] rfl (by decide)
  exact ⟨h.1, h.2⟩
